import Mathlib

/-!
Shallow embedding of the proteus HTTP server library (package `http` plus its
`main` driver).  Pure functions of the source are translated into Lean
definitions; the per-connection control flow of `handleClient` is rendered as
the list of observable actions it performs; the package-level mutable globals
(`ServerInstance`, `SrvLogger`) become explicit state passing.  Components of
the repository whose defining files are not among the provided sources (the
router internals, the request/response structs, the configuration tables and
the `fs` collaborator) are modelled from the spec, each marked by a doc
comment starting `Modelled from the spec:`.
-/

namespace Proteus

/-- ASCII whitespace, the characters trimmed by `strings.TrimSpace` on ASCII
input. -/
def isSpaceChar (c : Char) : Bool :=
  c == ' ' || c == '\t' || c == '\n' || c == '\r'

/-- Models `strings.TrimSpace` for ASCII input: remove whitespace from both
ends. -/
def trimSpace (s : String) : String :=
  ⟨((s.data.dropWhile isSpaceChar).reverse.dropWhile isSpaceChar).reverse⟩

/-- Models `strings.ToUpper` for ASCII input. -/
def toUpper (s : String) : String := ⟨s.data.map Char.toUpper⟩

/-- Models `strings.ToLower` for ASCII input. -/
def toLower (s : String) : String := ⟨s.data.map Char.toLower⟩

/-- Models `strings.EqualFold` for ASCII input: character-wise
case-insensitive equality. -/
def eqFold (s t : String) : Bool :=
  s.data.map Char.toLower == t.data.map Char.toLower

/-- Modelled from the spec: the allowed-methods table `Versions` (its defining
file is not among the provided sources).  §6 describes it as a mapping from
protocol version identifier to the ordered set of method names valid for that
version; the server is an HTTP/1.x server whose registration surface offers
GET, HEAD and POST handlers, so the table carries versions "1.0" and "1.1",
each with those three methods. -/
def Versions : List (String × List String) :=
  [("1.0", ["GET", "HEAD", "POST"]), ("1.1", ["GET", "HEAD", "POST"])]

/-- A decimal number represented exactly: `(num, fracLen)` denotes
`num / 10 ^ fracLen`.  Used to model the float64 values of
`getHighestVersion`; on the plain decimal version identifiers the float
comparison is exact, so the rational comparison below agrees with it. -/
def DecNum : Type := Int × Nat

/-- Numeric value of a digit list, most significant first. -/
def digitsVal (ds : List Char) : Nat :=
  ds.foldl (fun acc c => acc * 10 + (c.toNat - 48)) 0

/-- Models `strconv.ParseFloat` restricted to plain decimal literals
`[sign]digits[.digits]` — the only shape a version identifier takes — read
exactly (the float64 rounding of `ParseFloat` is exact on the one-decimal
identifiers of the table). -/
def parseDecimal (s : String) : Option DecNum :=
  let signAndBody : Int × List Char :=
    match s.data with
    | '-' :: r => (-1, r)
    | '+' :: r => (1, r)
    | r => (1, r)
  let sign := signAndBody.1
  let body := signAndBody.2
  match body.splitOn '.' with
  | [intPart] =>
      if intPart.all Char.isDigit && !intPart.isEmpty then
        some (sign * (digitsVal intPart : Int), 0)
      else none
  | [intPart, fracPart] =>
      if intPart.all Char.isDigit && fracPart.all Char.isDigit
          && !(intPart.isEmpty && fracPart.isEmpty) then
        some (sign * ((digitsVal intPart : Int) * 10 ^ fracPart.length + digitsVal fracPart),
          fracPart.length)
      else none
  | _ => none

/-- Exact comparison `a > b` of two decimal numbers: cross-multiply by the
(positive) powers of ten. -/
def decGt (a b : DecNum) : Bool :=
  b.1 * 10 ^ a.2 < a.1 * 10 ^ b.2

/-- Models `fmt.Sprintf("%.1f", x)` for the nonnegative values produced by
`getHighestVersion` (rounding half up; ties between tenths do not arise for
the version identifiers of the table): round the value times ten to the
nearest integer, then print integer part, dot, tenths digit. -/
def formatOneDec (v : DecNum) : String :=
  let n : Nat := (v.1.toNat * 20 + 10 ^ v.2) / (2 * 10 ^ v.2)
  toString (n / 10) ++ "." ++ toString (n % 10)

/-- Translation of `getHighestVersion` (helpers file, lines 51-63): fold the
parse of every version key, keeping the numeric maximum starting from 0.0,
ignoring unparsable keys, and format the result with one decimal digit.  The
Go loop visits the map in unspecified order; the maximum is
order-independent. -/
def getHighestVersion : String :=
  let maxVersion : DecNum := Versions.foldl
    (fun maxVersion p =>
      match parseDecimal p.1 with
      | some currentVersion => if decGt currentVersion maxVersion then currentVersion else maxVersion
      | none => maxVersion) ((0 : Int), (0 : Nat))
  formatOneDec maxVersion

/-- Translation of `getAllVersions` (helpers file, lines 66-74): the
whitespace-trimmed version keys. -/
def getAllVersions : List String :=
  Versions.map (fun p => trimSpace p.1)

/-- Translation of `getResponseVersion` (helpers file, lines 99-114): echo the
request version when it case-insensitively matches a supported version,
otherwise fall back to the highest supported version. -/
def getResponseVersion (requestVersion : String) : String :=
  let isCompatible := getAllVersions.any (fun version => eqFold version requestVersion)
  if isCompatible then requestVersion else getHighestVersion

/-- Translation of `isMethodAllowed` (helpers file, lines 88-96): some version
key matches case-insensitively and its method list contains the request
method exactly. -/
def isMethodAllowed (version : String) (requestMethod : String) : Bool :=
  Versions.any (fun p => eqFold p.1 version && p.2.contains requestMethod)


/-- Modelled from the spec: the path classification returned by the
filesystem collaborator `fs.GetPathType` (§6: "given a path, reports whether
it denotes a regular file, directory, or neither"); the constant names follow
the uses `fs.FILE_TYPE_PATH` visible in the helpers file. -/
inductive PathType where
  | FILE_TYPE_PATH
  | DIRECTORY_TYPE_PATH
deriving DecidableEq

/-- Models `filepath.Ext`: the suffix beginning at the final dot in the final
path element, empty when that element has no dot (scan backwards, stopping at
the path separator). -/
def pathExt (path : String) : String :=
  let rev := path.data.reverse
  let finalElem := rev.takeWhile (fun c => c != '/')
  match finalElem.findIdx? (fun c => c == '.') with
  | some i => ⟨(finalElem.take (i + 1)).reverse⟩
  | none => ""

/-- Translation of `getContentType` (helpers file, lines 18-34), with the
filesystem collaborator and the two configuration tables (`fs.GetPathType`,
`AllowedContentTypes`, `ServerDefaults`, none of whose defining files are
among the provided sources) passed as parameters: for a path classified as a
regular file, look up the trimmed, lowercased extension in the content-type
table, falling back to the trimmed configured default; any other
classification (or a classification error) reports failure with an empty
media type.  A missing table key yields the empty string, as a Go map index
does. -/
def getContentType (GetPathType : String → Except String PathType)
    (AllowedContentTypes ServerDefaults : List (String × String))
    (CompleteFilePath : String) : String × Bool :=
  match GetPathType CompleteFilePath with
  | .ok pathType =>
      if pathType = PathType.FILE_TYPE_PATH then
        let fileExtension := pathExt CompleteFilePath
        let fileExtension := trimSpace fileExtension
        let fileExtension := toLower fileExtension
        match AllowedContentTypes.lookup fileExtension with
        | some contentType => (contentType, true)
        | none => (trimSpace ((ServerDefaults.lookup "content_type").getD ""), true)
      else ("", false)
  | .error _ => ("", false)

/-- Digit-string check used by `atoi`. -/
def allDigits (ds : List Char) : Bool := ds.all Char.isDigit && !ds.isEmpty

/-- Models `strconv.Atoi` with the error result discarded, as `getDefaultPort`
discards it: optional sign followed by digits parses to its value, anything
else yields 0 (Go returns 0 alongside the error).  The configured default
port is far below the 64-bit overflow bound, which is therefore not
modelled. -/
def atoi (s : String) : Int :=
  match s.data with
  | '-' :: r => if allDigits r then -(digitsVal r : Int) else 0
  | '+' :: r => if allDigits r then (digitsVal r : Int) else 0
  | r => if allDigits r then (digitsVal r : Int) else 0

/-- Translation of `getDefaultPort` (helpers file, lines 37-41), with the
`ServerDefaults` table as a parameter: parse the "port" entry, ignoring the
parse error. -/
def getDefaultPort (ServerDefaults : List (String × String)) : Int :=
  atoi ((ServerDefaults.lookup "port").getD "")

/-- Translation of `getServerDefaults` (helpers file, lines 44-48), with the
`ServerDefaults` table as a parameter: trim the key, look it up (a missing
key yields the empty string, as a Go map index does), trim the value. -/
def getServerDefaults (ServerDefaults : List (String × String)) (key : String) : String :=
  trimSpace ((ServerDefaults.lookup (trimSpace key)).getD "")

/-- Modelled from the spec: one registered static-file mapping (§3 `Route`:
`{method, pathPrefix, targetFilesystemPath}`; the struct's defining file is
not among the provided sources). -/
structure Route where
  method : String
  routePath : String
  targetPath : String
deriving DecidableEq

/-- Modelled from the spec: one node of the dynamic-route tree (§3
`RouteTreeNode`: `{segmentLiteral, isParameter, parameterName,
mapping-from-method-to-handler, ordered-children}`; the tree's defining file
is not among the provided sources).  The handler type is a parameter `χ`. -/
inductive RouteTreeNode (χ : Type) where
  | node (segmentLiteral : String) (isParameter : Bool) (parameterName : String)
      (handlers : List (String × χ)) (children : List (RouteTreeNode χ))

/-- Modelled from the spec: `createTree` (called by `newRouter`; its defining
file is not among the provided sources) returns the empty root of the
dynamic-route tree. -/
def createTree (χ : Type) : RouteTreeNode χ :=
  RouteTreeNode.node "" false "" [] []

/-- The router: an ordered list of static-file mappings plus the
dynamic-route tree, as in the spec's §2 description of the Router and the
fields initialized by `newRouter`. -/
structure Router (χ : Type) where
  Routes : List Route
  RouteTree : RouteTreeNode χ

/-- Translation of `newRouter` (helpers file, lines 135-140): empty route
list and a fresh tree root. -/
def newRouter (χ : Type) : Router χ :=
  { Routes := [], RouteTree := createTree χ }

/-- Translation of the `HttpServer` struct (server file, lines 11-20),
handler type abstracted as `χ`.  The listener socket is an operating-system
resource outside the embedding and is omitted. -/
structure HttpServer (χ : Type) where
  HostAddress : String
  PortNumber : Int
  innerRouter : Router χ

/-- The package-level mutable globals read and written by `NewServer`
(`SrvLogger`, `ServerInstance`), rendered as an explicit state record: the
logger state is abstracted to whether it has been initialized. -/
structure ServerState (χ : Type) where
  srvLoggerSet : Bool
  serverInstance : Option (HttpServer χ)

/-- Translation of `NewServer` (helpers file, lines 149-164) with the
globals passed as explicit state: initialize the logger if absent; when no
instance exists, construct one with empty host, port 0 and a fresh router,
store it and return it; otherwise return the stored instance unchanged. -/
def NewServer {χ : Type} (st : ServerState χ) : HttpServer χ × ServerState χ :=
  let st1 := if st.srvLoggerSet then st else { st with srvLoggerSet := true }
  match st1.serverInstance with
  | none =>
      let server : HttpServer χ :=
        { HostAddress := "", PortNumber := 0, innerRouter := newRouter χ }
      (server, { st1 with serverInstance := some server })
  | some s => (s, st1)

/-- Modelled from the spec: the registration-time error taxonomy (§7; the
router's defining file is not among the provided sources). -/
inductive RouterError where
  | DuplicateRoute
  | InvalidPattern
deriving DecidableEq

/-- Modelled from the spec: `addStaticRoute` (§4.2; the router's defining
file is not among the provided sources): "registers a prefix-based static
mapping; fails with a DuplicateRoute error if an identical
`(method, routePrefix)` pair is already registered. Order of registration is
preserved." -/
def addStaticRoute {χ : Type} (r : Router χ) (method routePath targetPath : String) :
    Except RouterError (Router χ) :=
  if r.Routes.any (fun rt => rt.method == method && rt.routePath == routePath) then
    .error RouterError.DuplicateRoute
  else
    .ok { r with Routes :=
      r.Routes ++ [{ method := method, routePath := routePath, targetPath := targetPath }] }

/-- Translation of `Static` (server file, lines 23-35), with the in-place
mutation of `srv.innerRouter` rendered by returning the updated server
alongside the error: register the mapping under GET; on error return it with
the server unchanged; otherwise register the same mapping under HEAD; on
error return it keeping the GET registration; otherwise succeed. -/
def Static {χ : Type} (srv : HttpServer χ) (Route TargetPath : String) :
    Option RouterError × HttpServer χ :=
  match addStaticRoute srv.innerRouter "GET" Route TargetPath with
  | .error err => (some err, srv)
  | .ok r1 =>
      match addStaticRoute r1 "HEAD" Route TargetPath with
      | .error err => (some err, { srv with innerRouter := r1 })
      | .ok r2 => (none, { srv with innerRouter := r2 })

/-- Translation of the configuration prefix of `Listen` (server file, lines
38-49), with the `ServerDefaults` table as a parameter: port 0 selects the
configured default port, an empty host selects the configured default
hostname, any other host is trimmed.  The subsequent socket bind and accept
loop (lines 51-72) perform network I/O outside the embedding. -/
def Listen {χ : Type} (ServerDefaults : List (String × String)) (srv : HttpServer χ)
    (PortNumber : Int) (HostAddress : String) : HttpServer χ :=
  let srv := if PortNumber = 0 then { srv with PortNumber := getDefaultPort ServerDefaults }
    else { srv with PortNumber := PortNumber }
  if HostAddress = "" then { srv with HostAddress := getServerDefaults ServerDefaults "hostname" }
  else { srv with HostAddress := trimSpace HostAddress }

/-- Modelled from the spec: the parsed request model (§3 `HttpRequest`:
`{method, rawPath, version, headers, segments, bodyReader}`; the struct's
defining file is not among the provided sources).  The body reader is an I/O
stream and is not represented. -/
structure HttpRequest where
  Method : String
  Path : String
  Version : String
  Headers : List (String × String)
  Segments : List (String × List String)

/-- Modelled from the spec: the status constant for 405 used by
`handleClient` (§4.5 fixes the code; the constant's defining file is not
among the provided sources). -/
def StatusMethodNotAllowed : Nat := 405

/-- Modelled from the spec: the status constant for 404 used by
`handleClient` (§4.5 fixes the code; the constant's defining file is not
among the provided sources). -/
def StatusNotFound : Nat := 404

/-- One observable action of `handleClient`, in program order: logging an
error, constructing the response object with its negotiated version, setting
a response status, invoking the package error handler, invoking a matched
route handler, and closing the client connection. -/
inductive ClientEvent (χ : Type) where
  | logError (msg : String)
  | mkResponse (version : String)
  | setStatus (code : Nat)
  | callErrorHandler
  | callHandler (h : χ)
  | closeConn

/-- Translation of `handleClient` (server file, lines 75-99) as the list of
observable actions it performs.  The parse of the connection's byte stream
(`newRequest` + `read()`, both I/O) enters as the `readResult` parameter and
the router lookup (`matchRoute`, whose defining file is not among the
provided sources) as the function `matchRoute`.  The `defer` on line 76
closes the connection when the function returns, so every branch ends in
`closeConn`.  On a read error: log and return.  Otherwise construct the
response with the negotiated version; if the trimmed, uppercased method is
not allowed for that version, set 405 and call the error handler; otherwise
match the route: on failure log, set 404 and call the error handler, on
success call the matched handler. -/
def handleClient {χ : Type} (matchRoute : HttpRequest → Except String χ)
    (readResult : Except String HttpRequest) : List (ClientEvent χ) :=
  match readResult with
  | .error err => [.logError err, .closeConn]
  | .ok httpRequest =>
      let version := getResponseVersion httpRequest.Version
      if !isMethodAllowed version (toUpper (trimSpace httpRequest.Method)) then
        [.mkResponse version, .setStatus StatusMethodNotAllowed, .callErrorHandler, .closeConn]
      else
        match matchRoute httpRequest with
        | .error err =>
            [.mkResponse version, .logError err, .setStatus StatusNotFound,
              .callErrorHandler, .closeConn]
        | .ok routeHandler =>
            [.mkResponse version, .callHandler routeHandler, .closeConn]


/-- A sample parsed request used by concrete instantiations below. -/
def sampleRequest (method version : String) : HttpRequest :=
  { Method := method, Path := "/user/alice", Version := version,
    Headers := [], Segments := [] }

/-- A filesystem oracle that classifies every path as a regular file, for
concrete instantiations below. -/
def fileOracle : String → Except String PathType :=
  fun _ => Except.ok PathType.FILE_TYPE_PATH

/-- Claim C1: a request version that case-insensitively matches a supported
version identifier is echoed unchanged; any other request version negotiates
to the numerically greatest supported identifier, which for the server's
table is "1.1" (a key of the table, with every parsable key numerically at
most 1.1). -/
theorem getResponseVersion_negotiation (v : String) :
    getResponseVersion v =
      (if getAllVersions.any (fun version => eqFold version v) then v else "1.1")
    ∧ getHighestVersion = "1.1"
    ∧ ("1.1", ["GET", "HEAD", "POST"]) ∈ Versions
    ∧ Versions.all (fun p => (parseDecimal p.1).all
        (fun q => !decGt q ((11 : Int), (1 : Nat)))) = true := by
  constructor
  · show (if getAllVersions.any (fun version => eqFold version v) then v
      else getHighestVersion) = _
    have h : getHighestVersion = "1.1" := by decide
    rw [h]
  · exact ⟨by decide, by decide, by decide⟩

/-- Claim C2: when the trimmed, uppercased request method is not allowed for
the negotiated version, `handleClient` sets status 405 and invokes the error
handler, and the route matcher — quantified over arbitrarily here, so never
consulted — plays no role; in particular no 404 is produced even when no
route matches. -/
theorem handleClient_methodNotAllowed {χ : Type} (matchRoute : HttpRequest → Except String χ)
    (req : HttpRequest)
    (h : isMethodAllowed (getResponseVersion req.Version)
      (toUpper (trimSpace req.Method)) = false) :
    handleClient matchRoute (Except.ok req) =
      [ClientEvent.mkResponse (getResponseVersion req.Version),
        ClientEvent.setStatus StatusMethodNotAllowed,
        ClientEvent.callErrorHandler, ClientEvent.closeConn] := by
  simp [handleClient, h]

/-- Witness for C2: a DELETE request against version 1.1 is rejected with 405
even under a route matcher that fails on every path. -/
theorem handleClient_methodNotAllowed_witness :
    isMethodAllowed (getResponseVersion "1.1") (toUpper (trimSpace "DELETE")) = false
    ∧ handleClient (fun _ => Except.error "RouteNotFound")
        (Except.ok (sampleRequest "DELETE" "1.1")) =
      [ClientEvent.mkResponse (getResponseVersion "1.1"),
        ClientEvent.setStatus StatusMethodNotAllowed,
        ClientEvent.callErrorHandler, (ClientEvent.closeConn : ClientEvent Unit)] :=
  ⟨by decide, handleClient_methodNotAllowed _ _ (by decide)⟩

/-- Claim C3: for a parsed, method-allowed request, `handleClient` follows
the route matcher's outcome: on failure it logs, sets status 404 and invokes
the error handler; on success it invokes the matched handler and the error
handler is never invoked. -/
theorem handleClient_routing {χ : Type} (matchRoute : HttpRequest → Except String χ)
    (req : HttpRequest)
    (hAllowed : isMethodAllowed (getResponseVersion req.Version)
      (toUpper (trimSpace req.Method)) = true) :
    handleClient matchRoute (Except.ok req) =
      match matchRoute req with
      | .error err =>
          [ClientEvent.mkResponse (getResponseVersion req.Version),
            ClientEvent.logError err, ClientEvent.setStatus StatusNotFound,
            ClientEvent.callErrorHandler, ClientEvent.closeConn]
      | .ok routeHandler =>
          [ClientEvent.mkResponse (getResponseVersion req.Version),
            ClientEvent.callHandler routeHandler, ClientEvent.closeConn] := by
  cases hm : matchRoute req <;> simp [handleClient, hAllowed, hm]

/-- Witness for C3: a GET request against version 1.1 yields the 404 error
path under an always-failing matcher and the handler path under a succeeding
matcher. -/
theorem handleClient_routing_witness :
    isMethodAllowed (getResponseVersion "1.1") (toUpper (trimSpace "GET")) = true
    ∧ handleClient (fun _ => Except.error "RouteNotFound")
        (Except.ok (sampleRequest "GET" "1.1")) =
      [ClientEvent.mkResponse (getResponseVersion "1.1"),
        ClientEvent.logError "RouteNotFound", ClientEvent.setStatus StatusNotFound,
        ClientEvent.callErrorHandler, (ClientEvent.closeConn : ClientEvent Unit)]
    ∧ handleClient (fun _ => Except.ok ()) (Except.ok (sampleRequest "GET" "1.1")) =
      [ClientEvent.mkResponse (getResponseVersion "1.1"),
        ClientEvent.callHandler (), ClientEvent.closeConn] :=
  ⟨by decide,
    (handleClient_routing _ _ (by decide)).trans rfl,
    (handleClient_routing _ _ (by decide)).trans rfl⟩

/-- Claim C4: when the request parse fails, `handleClient` logs the error and
returns — no response object is constructed, no status is set, no handler
runs, nothing is written — and the deferred close still closes the
connection. -/
theorem handleClient_parseFailure {χ : Type} (matchRoute : HttpRequest → Except String χ)
    (err : String) :
    handleClient matchRoute (Except.error err) =
      [ClientEvent.logError err, ClientEvent.closeConn] := rfl

/-- Claim C7: on every path through `handleClient` — parse failure, 405, 404,
or a matched handler — the deferred close fires exactly once, as the final
action; the function handles a single request and never continues on the
connection. -/
theorem handleClient_closesConnection {χ : Type} (matchRoute : HttpRequest → Except String χ)
    (readResult : Except String HttpRequest) :
    (handleClient matchRoute readResult).getLast? = some ClientEvent.closeConn
    ∧ (handleClient matchRoute readResult).countP
        (fun e => match e with | ClientEvent.closeConn => true | _ => false) = 1 := by
  cases readResult with
  | error err => exact ⟨rfl, rfl⟩
  | ok req =>
    cases hA : isMethodAllowed (getResponseVersion req.Version) (toUpper (trimSpace req.Method)) with
    | false =>
      have hev : handleClient matchRoute (Except.ok req) =
          [ClientEvent.mkResponse (getResponseVersion req.Version),
            ClientEvent.setStatus StatusMethodNotAllowed,
            ClientEvent.callErrorHandler, ClientEvent.closeConn] := by
        simp [handleClient, hA]
      rw [hev]; exact ⟨rfl, rfl⟩
    | true =>
      cases hm : matchRoute req with
      | error err =>
        have hev : handleClient matchRoute (Except.ok req) =
            [ClientEvent.mkResponse (getResponseVersion req.Version),
              ClientEvent.logError err, ClientEvent.setStatus StatusNotFound,
              ClientEvent.callErrorHandler, ClientEvent.closeConn] := by
          simp [handleClient, hA, hm]
        rw [hev]; exact ⟨rfl, rfl⟩
      | ok routeHandler =>
        have hev : handleClient matchRoute (Except.ok req) =
            [ClientEvent.mkResponse (getResponseVersion req.Version),
              ClientEvent.callHandler routeHandler, ClientEvent.closeConn] := by
          simp [handleClient, hA, hm]
        rw [hev]; exact ⟨rfl, rfl⟩

/-- Claim C5: for a path the filesystem collaborator classifies as a regular
file, `getContentType` succeeds, returning the content-type table entry for
the trimmed, lowercased extension when present and the trimmed configured
default media type otherwise. -/
theorem getContentType_regularFile (GetPathType : String → Except String PathType)
    (AllowedContentTypes ServerDefaults : List (String × String)) (CompleteFilePath : String)
    (h : GetPathType CompleteFilePath = Except.ok PathType.FILE_TYPE_PATH) :
    getContentType GetPathType AllowedContentTypes ServerDefaults CompleteFilePath =
      ((AllowedContentTypes.lookup (toLower (trimSpace (pathExt CompleteFilePath)))).getD
        (trimSpace ((ServerDefaults.lookup "content_type").getD "")), true) := by
  unfold getContentType
  rw [h]
  cases hl : AllowedContentTypes.lookup (toLower (trimSpace (pathExt CompleteFilePath))) with
  | none => simp [hl]
  | some contentType => simp [hl]

/-- Witness for C5: a `.pdf` file resolves the table entry
`application/pdf`; an unknown `.xyz` extension resolves the configured
default media type; both lookups report success. -/
theorem getContentType_regularFile_witness :
    fileOracle "/srv/files/report.pdf" = Except.ok PathType.FILE_TYPE_PATH
    ∧ getContentType fileOracle [(".pdf", "application/pdf")] [("content_type", "text/html")]
        "/srv/files/report.pdf" = ("application/pdf", true)
    ∧ getContentType fileOracle [(".pdf", "application/pdf")] [("content_type", "text/html")]
        "/srv/files/unknown.xyz" = ("text/html", true) :=
  ⟨rfl, (getContentType_regularFile _ _ _ _ rfl).trans (by decide),
    (getContentType_regularFile _ _ _ _ rfl).trans (by decide)⟩

/-- Claim C6: from a state holding no instance, `NewServer` constructs a
server with empty host, port 0 and an empty router, and stores it as the
instance; from any state, a further call returns exactly the result of the
previous call with the state unchanged, so every call after the first
returns the same instance. -/
theorem newServer_singleton {χ : Type} (st : ServerState χ)
    (h : st.serverInstance = none) :
    (NewServer st).1 = { HostAddress := "", PortNumber := 0, innerRouter := newRouter χ }
    ∧ (NewServer st).2.serverInstance = some (NewServer st).1
    ∧ ∀ st2 : ServerState χ,
        NewServer (NewServer st2).2 = ((NewServer st2).1, (NewServer st2).2) := by
  refine ⟨?_, ?_, ?_⟩
  · cases hb : st.srvLoggerSet <;> simp [NewServer, hb, h]
  · cases hb : st.srvLoggerSet <;> simp [NewServer, hb, h]
  · intro st2
    cases hb : st2.srvLoggerSet <;> cases hi : st2.serverInstance <;>
      simp [NewServer, hb, hi]

/-- Witness for C6: starting from the empty state, the first call constructs
the blank server and stores it, and calling again on the resulting state
returns the same instance and state. -/
theorem newServer_singleton_witness :
    (ServerState.mk false none : ServerState Unit).serverInstance = none
    ∧ (NewServer (ServerState.mk false none : ServerState Unit)).1 =
        { HostAddress := "", PortNumber := 0, innerRouter := newRouter Unit }
    ∧ (NewServer (ServerState.mk false none : ServerState Unit)).2.serverInstance =
        some (NewServer (ServerState.mk false none : ServerState Unit)).1
    ∧ NewServer (NewServer (ServerState.mk false none : ServerState Unit)).2 =
        ((NewServer (ServerState.mk false none : ServerState Unit)).1,
          (NewServer (ServerState.mk false none : ServerState Unit)).2) :=
  ⟨rfl, (newServer_singleton _ rfl).1, (newServer_singleton _ rfl).2.1,
    (newServer_singleton (ServerState.mk false none) rfl).2.2 _⟩

/-- Claim C8: one `Static` call registers the mapping under GET and, with the
same target, under HEAD; a duplicate GET registration returns its error with
the router untouched, so the HEAD registration is never attempted; a
duplicate HEAD registration returns its error keeping only the GET entry. -/
theorem static_registersGetAndHead {χ : Type} (srv : HttpServer χ) (route target : String) :
    Static srv route target =
      if srv.innerRouter.Routes.any (fun rt => rt.method == "GET" && rt.routePath == route) then
        (some RouterError.DuplicateRoute, srv)
      else if srv.innerRouter.Routes.any
          (fun rt => rt.method == "HEAD" && rt.routePath == route) then
        (some RouterError.DuplicateRoute,
          { srv with innerRouter := { srv.innerRouter with
              Routes := srv.innerRouter.Routes ++
                [{ method := "GET", routePath := route, targetPath := target }] } })
      else
        (none,
          { srv with innerRouter := { srv.innerRouter with
              Routes := srv.innerRouter.Routes ++
                [{ method := "GET", routePath := route, targetPath := target },
                 { method := "HEAD", routePath := route, targetPath := target }] } }) := by
  unfold Static addStaticRoute
  cases hg : srv.innerRouter.Routes.any (fun rt => rt.method == "GET" && rt.routePath == route) with
  | true => simp [hg]
  | false =>
    cases hh : srv.innerRouter.Routes.any
        (fun rt => rt.method == "HEAD" && rt.routePath == route) with
    | true => simp [hg, hh, List.any_append]
    | false => simp [hg, hh, List.any_append]

/-- Claim C9: the guard of `handleClient` normalizes the request method by
trimming and uppercasing before the exact comparison against the table's
method entries, so a request whose method differs from a table entry only by
case or surrounding whitespace is treated as allowed and reaches its
handler. -/
theorem handleClient_methodNormalization {χ : Type}
    (matchRoute : HttpRequest → Except String χ) (req : HttpRequest) (routeHandler : χ)
    (p : String × List String)
    (hmatch : matchRoute req = Except.ok routeHandler)
    (hp : p ∈ Versions)
    (hfold : eqFold p.1 (getResponseVersion req.Version) = true)
    (hmem : toUpper (trimSpace req.Method) ∈ p.2) :
    isMethodAllowed (getResponseVersion req.Version) (toUpper (trimSpace req.Method)) = true
    ∧ handleClient matchRoute (Except.ok req) =
      [ClientEvent.mkResponse (getResponseVersion req.Version),
        ClientEvent.callHandler routeHandler, ClientEvent.closeConn] := by
  have hal : isMethodAllowed (getResponseVersion req.Version)
      (toUpper (trimSpace req.Method)) = true := by
    unfold isMethodAllowed
    rw [List.any_eq_true]
    exact ⟨p, hp, by simp [hfold, hmem]⟩
  exact ⟨hal, by simp [handleClient, hal, hmatch]⟩

/-- Witness for C9: the method `" get "` — differing from the table entry
`"GET"` only by case and surrounding whitespace — is treated as allowed for
version 1.1 and reaches the matched handler. -/
theorem handleClient_methodNormalization_witness :
    ((fun _ : HttpRequest => (Except.ok () : Except String Unit))
        (sampleRequest " get " "1.1") = Except.ok ())
    ∧ ("1.1", ["GET", "HEAD", "POST"]) ∈ Versions
    ∧ eqFold "1.1" (getResponseVersion "1.1") = true
    ∧ toUpper (trimSpace " get ") ∈ ["GET", "HEAD", "POST"]
    ∧ isMethodAllowed (getResponseVersion "1.1") (toUpper (trimSpace " get ")) = true
    ∧ handleClient (fun _ => Except.ok ()) (Except.ok (sampleRequest " get " "1.1")) =
      [ClientEvent.mkResponse (getResponseVersion "1.1"),
        ClientEvent.callHandler (), ClientEvent.closeConn] := by
  refine ⟨rfl, by decide, by decide, by decide, ?_⟩
  exact handleClient_methodNormalization (fun _ => Except.ok ())
    (sampleRequest " get " "1.1") () ("1.1", ["GET", "HEAD", "POST"])
    rfl (by decide) (by decide) (by decide)

/-- Claim C10: `Listen` sets the server's port to the configured default when
the port argument is 0 and to the argument otherwise, and sets the host to
the configured default hostname when the host argument is empty and to the
trimmed argument otherwise. -/
theorem listen_configuresHostAndPort {χ : Type} (ServerDefaults : List (String × String))
    (srv : HttpServer χ) (PortNumber : Int) (HostAddress : String) :
    (Listen ServerDefaults srv PortNumber HostAddress).PortNumber =
      (if PortNumber = 0 then getDefaultPort ServerDefaults else PortNumber)
    ∧ (Listen ServerDefaults srv PortNumber HostAddress).HostAddress =
      (if HostAddress = "" then getServerDefaults ServerDefaults "hostname"
        else trimSpace HostAddress) := by
  by_cases hp : PortNumber = 0 <;> by_cases hh : HostAddress = "" <;>
    simp [Listen, hp, hh]

end Proteus
